import Mathlib

/-!
Verification of claude-top core logic: a shallow embedding, in Lean, of the
process-status classifier, the I/O estimator, the alert rate limiter, the
adaptive update interval, and the SQLite-backed persistence operations
(projects, sessions, process trees), together with theorems settling the
stated behavioural claims.

CPU percentages, memory sizes and timestamps are modelled as exact rationals;
Python dictionaries keyed by pid are modelled as functions into `Option`;
SQL tables are modelled as lists of row structures in insertion order.
-/

namespace ClaudeTop

/-! ### Process status classifier (claude_top_core.py, determine_process_status) -/

/-- Mean of a list of rationals: `sum(l) / len(l)` (0 on the empty list,
matching Python's guarded uses). -/
def meanQ (l : List ℚ) : ℚ := l.sum / (l.length : ℚ)

/-- Python `max(l)` for a nonempty list (we seed with the head, so the
result is correct whenever `l ≠ []`). -/
def pyMax (l : List ℚ) : ℚ := l.foldl max (l.headD 0)

/-- Python `l[-3:]`: the last three samples (all of them when fewer). -/
def lastThree (l : List ℚ) : List ℚ := l.drop (l.length - 3)

/-- Python `l[:-2]`: all samples outside the most recent two. -/
def dropLastTwo (l : List ℚ) : List ℚ := l.take (l.length - 2)

/-- Python `l[-1] if l else 0`: the most recent sample. -/
def lastSample (l : List ℚ) : ℚ := l.getLastD 0

/-- `had_activity`: `any(sample > 3.0 for sample in cpu_samples[:-2]) if
len(cpu_samples) > 2 else False`. -/
def had_activity (l : List ℚ) : Prop :=
  2 < l.length ∧ ∃ s ∈ dropLastTwo l, s > 3

instance : DecidablePred had_activity := fun l => by
  unfold had_activity; infer_instance

/-- `determine_process_status` from claude_top_core.py, as a pure function of
the manual-pause set, the pid, the OS-reported status string and the pid's CPU
history (`self.cpu_histories[pid]`, most recent sample last). -/
def determine_process_status (pausedPids : List Nat) (pid : Nat)
    (sysStatus : String) (samples : List ℚ) : String :=
  if pid ∈ pausedPids then "paused"
  else if sysStatus = "stopped" then "paused"
  else if 3 ≤ samples.length then
    let avg_cpu := meanQ samples
    let max_cpu := pyMax samples
    let recent_cpu := lastSample samples
    let recent_samples := lastThree samples
    let recent_avg := meanQ recent_samples
    if avg_cpu > 5 then "running"
    else if recent_avg < 1/2 then
      if had_activity samples ∧ max_cpu > 3 then "waiting"
      else if recent_cpu > 1/5 ∨ ∃ s ∈ recent_samples, s > 1/2 then "waiting"
      else "idle"
    else "running"
  else "running"

/-- **C1.** With at least 3 history samples, the pid not manually paused and
the process not OS-stopped, a mean CPU above 5.0 forces the classifier to
return "running", whatever the other branches would say. -/
theorem status_running_of_high_avg (pausedPids : List Nat) (pid : Nat)
    (sysStatus : String) (samples : List ℚ)
    (h1 : pid ∉ pausedPids) (h2 : sysStatus ≠ "stopped")
    (h3 : 3 ≤ samples.length) (h4 : meanQ samples > 5) :
    determine_process_status pausedPids pid sysStatus samples = "running" := by
  unfold determine_process_status
  rw [if_neg h1, if_neg h2, if_pos h3]
  simp only [if_pos h4]

/-- Witness for C1 at a concrete input. -/
theorem status_running_of_high_avg_witness :
    (1 : Nat) ∉ ([] : List Nat) ∧ "sleeping" ≠ "stopped" ∧
    3 ≤ ([6, 6, 6] : List ℚ).length ∧ meanQ [6, 6, 6] > 5 ∧
    determine_process_status [] 1 "sleeping" [6, 6, 6] = "running" :=
  ⟨by decide, by decide, by decide, by norm_num [meanQ],
   status_running_of_high_avg [] 1 "sleeping" [6, 6, 6]
     (by decide) (by decide) (by decide) (by norm_num [meanQ])⟩

/-- **C2.** With at least 3 samples, not paused/stopped, mean CPU at most 5.0
and mean of the last three samples below 0.5: the classifier returns
"waiting" exactly when (some sample outside the most recent two exceeded 3.0
and the history maximum exceeds 3.0) or (the last sample exceeds 0.2 or some
of the last three samples exceeds 0.5); otherwise it returns "idle". -/
theorem status_waiting_or_idle (pausedPids : List Nat) (pid : Nat)
    (sysStatus : String) (samples : List ℚ)
    (h1 : pid ∉ pausedPids) (h2 : sysStatus ≠ "stopped")
    (h3 : 3 ≤ samples.length) (h4 : ¬ meanQ samples > 5)
    (h5 : meanQ (lastThree samples) < 1/2) :
    determine_process_status pausedPids pid sysStatus samples =
      if (had_activity samples ∧ pyMax samples > 3) ∨
          (lastSample samples > 1/5 ∨ ∃ s ∈ lastThree samples, s > 1/2)
      then "waiting" else "idle" := by
  unfold determine_process_status
  rw [if_neg h1, if_neg h2, if_pos h3]
  simp only [if_neg h4, if_pos h5]
  by_cases hA : had_activity samples ∧ pyMax samples > 3
  · rw [if_pos hA, if_pos (Or.inl hA)]
  · rw [if_neg hA]
    by_cases hB : lastSample samples > 1/5 ∨ ∃ s ∈ lastThree samples, s > 1/2
    · rw [if_pos hB, if_pos (Or.inr hB)]
    · rw [if_neg hB, if_neg (not_or.mpr ⟨hA, hB⟩)]

/-- Witness for C2 at a concrete input (prior activity then silence:
the classifier reports "waiting"). -/
theorem status_waiting_or_idle_witness :
    (1 : Nat) ∉ ([] : List Nat) ∧ "sleeping" ≠ "stopped" ∧
    3 ≤ ([4, 0, 0, 0, 0] : List ℚ).length ∧
    ¬ meanQ [4, 0, 0, 0, 0] > 5 ∧ meanQ (lastThree [4, 0, 0, 0, 0]) < 1/2 ∧
    determine_process_status [] 1 "sleeping" [4, 0, 0, 0, 0] = "waiting" := by
  refine ⟨by decide, by decide, by decide, by norm_num [meanQ],
    by norm_num [meanQ, lastThree], ?_⟩
  have h := status_waiting_or_idle [] 1 "sleeping" [4, 0, 0, 0, 0]
    (by decide) (by decide) (by decide) (by norm_num [meanQ])
    (by norm_num [meanQ, lastThree])
  rw [h, if_pos]
  exact Or.inl ⟨⟨by norm_num, 4, by norm_num [dropLastTwo], by norm_num⟩,
    by norm_num [pyMax, max_def]⟩

/-! ### Adaptive update interval (performance_optimizer.py) -/

/-- The slice of `PerformanceOptimizer` state that the interval logic uses:
`metrics.update_times` (a deque of at most 100 cycle durations, seconds) and
`adaptive_update_interval`. -/
structure PerfOptimizer where
  update_times : List ℚ
  adaptive_update_interval : ℚ

/-- `self.min_update_interval = 0.1`. -/
def min_update_interval : ℚ := 1/10

/-- `self.max_update_interval = 5.0`. -/
def max_update_interval : ℚ := 5

/-- Append to a `deque(maxlen=100)`: the oldest entry is evicted once the
length would exceed 100. -/
def appendBounded100 (l : List ℚ) (d : ℚ) : List ℚ :=
  let l2 := l ++ [d]
  l2.drop (l2.length - 100)

/-- `_adjust_update_interval`: no change with fewer than 5 recorded times;
otherwise grow the interval by ×1.2 (capped) when the average update time
exceeds 0.5s, shrink by ×0.9 (floored) when it is below 0.1s. -/
def adjust_update_interval (o : PerfOptimizer) : PerfOptimizer :=
  if o.update_times.length < 5 then o
  else
    let avg_update_time := meanQ o.update_times
    if avg_update_time > 1/2 then
      { o with
          adaptive_update_interval :=
            min (o.adaptive_update_interval * (12/10)) max_update_interval }
    else if avg_update_time < 1/10 then
      { o with
          adaptive_update_interval :=
            max (o.adaptive_update_interval * (9/10)) min_update_interval }
    else o

/-- `measure_update_time` restricted to its state effect on the recorded
cycle duration `d`: append to the bounded history, then adjust the interval. -/
def measure_update_time (o : PerfOptimizer) (d : ℚ) : PerfOptimizer :=
  adjust_update_interval
    { o with update_times := appendBounded100 o.update_times d }

lemma measure_update_time_times (o : PerfOptimizer) (d : ℚ) :
    (measure_update_time o d).update_times = appendBounded100 o.update_times d := by
  simp only [measure_update_time, adjust_update_interval]
  split_ifs <;> rfl

/-- **C9 counterexample.** Recording a single 1-second cycle into a fresh
optimizer leaves the history average at 1s (> 0.5s), yet the interval is not
multiplied by 1.2: it stays at 1.0 because the code skips adjustment until
the history holds 5 samples. -/
theorem adjust_interval_counterexample :
    meanQ (measure_update_time ⟨[], 1⟩ 1).update_times > 1/2 ∧
    (measure_update_time ⟨[], 1⟩ 1).adaptive_update_interval = 1 ∧
    (1 : ℚ) ≠ min ((1 : ℚ) * (12/10)) max_update_interval := by
  refine ⟨?_, ?_, by norm_num [max_update_interval, min_def]⟩
  · rw [measure_update_time_times]
    norm_num [appendBounded100, meanQ]
  · norm_num [measure_update_time, adjust_update_interval, appendBounded100]

/-- **C9 (amended).** After appending a recorded cycle duration to the
bounded (≤100) history: once the history holds at least 5 samples, an
average above 0.5s multiplies the interval by 1.2 (capped at the maximum)
and an average below 0.1s multiplies it by 0.9 (floored at the minimum),
otherwise it is unchanged; with fewer than 5 samples the interval is always
unchanged. -/
theorem adjust_interval_amended (o : PerfOptimizer) (d : ℚ)
    (hb : o.update_times.length ≤ 100) :
    (measure_update_time o d).update_times = appendBounded100 o.update_times d ∧
    (measure_update_time o d).update_times.length ≤ 100 ∧
    (measure_update_time o d).adaptive_update_interval =
      (if (appendBounded100 o.update_times d).length < 5 then
        o.adaptive_update_interval
      else if meanQ (appendBounded100 o.update_times d) > 1/2 then
        min (o.adaptive_update_interval * (12/10)) max_update_interval
      else if meanQ (appendBounded100 o.update_times d) < 1/10 then
        max (o.adaptive_update_interval * (9/10)) min_update_interval
      else o.adaptive_update_interval) := by
  refine ⟨measure_update_time_times o d, ?_, ?_⟩
  · rw [measure_update_time_times]
    simp only [appendBounded100, List.length_drop, List.length_append]
    omega
  · simp only [measure_update_time, adjust_update_interval]
    split_ifs <;> rfl

/-- Witness for C9 (amended): a fifth 1-second sample pushes the average
over 0.5s and the interval grows from 1.0 to 1.2. -/
theorem adjust_interval_amended_witness :
    ([1, 1, 1, 1] : List ℚ).length ≤ 100 ∧
    (measure_update_time ⟨[1, 1, 1, 1], 1⟩ 1).adaptive_update_interval = 12/10 := by
  refine ⟨by decide, ?_⟩
  have h := (adjust_interval_amended ⟨[1, 1, 1, 1], 1⟩ 1 (by decide)).2.2
  rw [h]
  norm_num [appendBounded100, meanQ, max_update_interval, min_def]

/-! ### Synthetic I/O estimator (claude_top_core.py, get_io_stats) -/

/-- Activity indicators sampled per process (`get_activity_indicators`). -/
structure Indicators where
  memory_usage : ℤ
  open_files : ℤ
  threads : ℤ
  network_connections : ℕ
  cpu_percent : ℚ

/-- Cumulative synthetic I/O totals per pid (`self.io_totals[pid]`). -/
structure IOTotals where
  total_net_sent : ℤ
  total_net_recv : ℤ
  total_disk : ℤ

/-- Per-cycle network stats returned to the caller. -/
structure NetStats where
  bytes_sent : ℤ
  bytes_recv : ℤ
  bytes_total : ℤ
deriving DecidableEq

/-- Per-cycle disk stats returned to the caller. -/
structure DiskStats where
  total_bytes : ℤ
  current_bytes : ℤ
deriving DecidableEq

/-- The monitor's I/O-related per-pid state (`self.io_tracker` and
`self.io_totals`, Python dicts modelled as functions into `Option`). -/
structure IOState where
  tracker : ℕ → Option Indicators
  totals : ℕ → Option IOTotals

/-- Update one key of a dict. -/
def dictSet {α : Type} (f : ℕ → Option α) (k : ℕ) (v : α) : ℕ → Option α :=
  fun k2 => if k2 = k then some v else f k2

/-- Python `int()` on a rational (truncation toward zero). -/
def pyInt (q : ℚ) : ℤ := if 0 ≤ q then ⌊q⌋ else -⌊-q⌋

/-- `get_io_stats` on one pid and one freshly sampled indicator snapshot,
as a pure state transformer. -/
def get_io_stats (st : IOState) (pid : ℕ) (cur : Indicators) :
    NetStats × DiskStats × IOState :=
  match st.tracker pid with
  | some prev =>
    let memory_delta : ℤ := cur.memory_usage - prev.memory_usage
    let files_delta : ℤ := cur.open_files - prev.open_files
    let estimated_write : ℤ := max 0 (Int.fdiv memory_delta 10)
    let estimated_read : ℤ := |files_delta| * 1024
    let current_disk : ℤ := estimated_write + estimated_read
    let cpu_factor : ℚ := max 1 (cur.cpu_percent / 10)
    let base_net_activity : ℚ := (cur.network_connections : ℚ) * 1024 * cpu_factor
    let current_net_sent : ℤ := pyInt (base_net_activity * (6/10))
    let current_net_recv : ℤ := pyInt (base_net_activity * (4/10))
    let tot := (st.totals pid).getD ⟨0, 0, 0⟩
    let tot2 : IOTotals :=
      ⟨tot.total_net_sent + current_net_sent,
       tot.total_net_recv + current_net_recv,
       tot.total_disk + current_disk⟩
    (⟨current_net_sent, current_net_recv, tot2.total_net_sent + tot2.total_net_recv⟩,
     ⟨tot2.total_disk, current_disk⟩,
     { tracker := dictSet st.tracker pid cur,
       totals := dictSet st.totals pid tot2 })
  | none =>
    (⟨0, 0, 0⟩, ⟨0, 0⟩,
     { tracker := dictSet st.tracker pid cur,
       totals := match st.totals pid with
         | some _ => st.totals
         | none => dictSet st.totals pid ⟨0, 0, 0⟩ })

/-- The cumulative totals currently recorded for a pid (zero if absent). -/
def totalsOf (st : IOState) (pid : ℕ) : IOTotals :=
  (st.totals pid).getD ⟨0, 0, 0⟩

/-- Componentwise order on cumulative totals. -/
def IOTotals.le (a b : IOTotals) : Prop :=
  a.total_net_sent ≤ b.total_net_sent ∧
  a.total_net_recv ≤ b.total_net_recv ∧
  a.total_disk ≤ b.total_disk

lemma IOTotals.le_refl (a : IOTotals) : IOTotals.le a a :=
  ⟨le_rfl, le_rfl, le_rfl⟩

lemma IOTotals.le_trans {a b c : IOTotals} (h1 : IOTotals.le a b)
    (h2 : IOTotals.le b c) : IOTotals.le a c :=
  ⟨h1.1.trans h2.1, h1.2.1.trans h2.2.1, h1.2.2.trans h2.2.2⟩

/-- Running the estimator over a sequence of cycles for one pid. -/
def ioCycles (st : IOState) (pid : ℕ) (curs : List Indicators) : IOState :=
  curs.foldl (fun s c => (get_io_stats s pid c).2.2) st

lemma pyInt_nonneg {q : ℚ} (h : 0 ≤ q) : 0 ≤ pyInt q := by
  rw [pyInt, if_pos h]
  exact Int.floor_nonneg.mpr h

lemma get_io_stats_totals_mono (st : IOState) (pid : ℕ) (cur : Indicators) :
    IOTotals.le (totalsOf st pid) (totalsOf ((get_io_stats st pid cur).2.2) pid) := by
  have hbase : (0 : ℚ) ≤ (cur.network_connections : ℚ) * 1024 * max 1 (cur.cpu_percent / 10) := by
    have h1 : (0 : ℚ) ≤ (cur.network_connections : ℚ) * 1024 := by positivity
    have h2 : (0 : ℚ) ≤ max 1 (cur.cpu_percent / 10) :=
      le_trans zero_le_one (le_max_left _ _)
    exact mul_nonneg h1 h2
  unfold get_io_stats
  cases htr : st.tracker pid with
  | some prev =>
    simp only [totalsOf, dictSet, if_pos rfl, Option.getD_some]
    refine ⟨?_, ?_, ?_⟩
    · exact le_add_of_nonneg_right (pyInt_nonneg (by positivity))
    · exact le_add_of_nonneg_right (pyInt_nonneg (by positivity))
    · refine le_add_of_nonneg_right (add_nonneg (le_max_left _ _) ?_)
      positivity
  | none =>
    cases hto : st.totals pid with
    | some t =>
      simp only [totalsOf, hto]
      exact IOTotals.le_refl _
    | none =>
      simp only [totalsOf, hto, dictSet, if_pos rfl, Option.getD_some, Option.getD_none]
      exact IOTotals.le_refl _

lemma ioCycles_totals_mono (pid : ℕ) (curs : List Indicators) (st : IOState) :
    IOTotals.le (totalsOf st pid) (totalsOf (ioCycles st pid curs) pid) := by
  induction curs generalizing st with
  | nil => exact IOTotals.le_refl _
  | cons c rest ih =>
    exact IOTotals.le_trans (get_io_stats_totals_mono st pid c)
      (ih ((get_io_stats st pid c).2.2))

lemma ioCycles_append (st : IOState) (pid : ℕ) (l1 l2 : List Indicators) :
    ioCycles st pid (l1 ++ l2) = ioCycles (ioCycles st pid l1) pid l2 :=
  List.foldl_append ..

/-- **C7.** If a pid has never been seen by the estimator, the first cycle
reports zero per-cycle and zero cumulative synthetic network and disk bytes;
and over any run of subsequent cycles the cumulative per-pid totals are
monotonically non-decreasing (any earlier prefix's totals are dominated by
any later prefix's). -/
theorem io_first_zero_and_totals_mono (st : IOState) (pid : ℕ)
    (cur : Indicators) (curs : List Indicators)
    (h : st.tracker pid = none) :
    (get_io_stats st pid cur).1 = ⟨0, 0, 0⟩ ∧
    (get_io_stats st pid cur).2.1 = ⟨0, 0⟩ ∧
    ∀ i j : ℕ, i ≤ j →
      IOTotals.le (totalsOf (ioCycles st pid (curs.take i)) pid)
        (totalsOf (ioCycles st pid (curs.take j)) pid) := by
  refine ⟨?_, ?_, ?_⟩
  · unfold get_io_stats; rw [h]
  · unfold get_io_stats; rw [h]
  · intro i j hij
    have hsplit : curs.take j = curs.take i ++ (curs.drop i).take (j - i) := by
      rw [← List.take_add]
      congr 1
      omega
    rw [hsplit, ioCycles_append]
    exact ioCycles_totals_mono ..

/-- Witness for C7 at a concrete fresh state and two concrete cycles. -/
theorem io_first_zero_and_totals_mono_witness :
    (get_io_stats ⟨fun _ => none, fun _ => none⟩ 7 ⟨1000, 3, 2, 1, 20⟩).1 = ⟨0, 0, 0⟩ ∧
    (get_io_stats ⟨fun _ => none, fun _ => none⟩ 7 ⟨1000, 3, 2, 1, 20⟩).2.1 = ⟨0, 0⟩ ∧
    IOTotals.le
      (totalsOf (ioCycles ⟨fun _ => none, fun _ => none⟩ 7
        ([⟨1000, 3, 2, 1, 20⟩, ⟨2000, 4, 2, 1, 20⟩].take 1)) 7)
      (totalsOf (ioCycles ⟨fun _ => none, fun _ => none⟩ 7
        ([⟨1000, 3, 2, 1, 20⟩, ⟨2000, 4, 2, 1, 20⟩].take 2)) 7) := by
  have h := io_first_zero_and_totals_mono ⟨fun _ => none, fun _ => none⟩ 7
    ⟨1000, 3, 2, 1, 20⟩ [⟨1000, 3, 2, 1, 20⟩, ⟨2000, 4, 2, 1, 20⟩] rfl
  exact ⟨h.1, h.2.1, h.2.2 1 2 (by decide)⟩

/-! ### Resource alerts with cooldown (claude_top_core.py, check_resource_alerts) -/

/-- The slice of a `ClaudeInstance` that the alert checker reads. -/
structure AlertInstance where
  pid : ℕ
  working_dir : String
  cpu_percent : ℚ
  memory_mb : ℚ

/-- An emitted alert dictionary. -/
structure Alert where
  typ : String
  pid : ℕ
  process : String
  value : ℚ
  threshold : ℚ
deriving DecidableEq

/-- Alert configuration fields of the monitor. -/
structure AlertConfig where
  alerts_enabled : Bool
  cpu_threshold : ℚ
  memory_threshold : ℚ
  alert_cooldown : ℚ

/-- `self.alert_history`: pid → (last cpu alert time, last memory alert time). -/
def AlertHist : Type := ℕ → Option (ℚ × ℚ)

/-- Python `working_dir.split('/')[-1]`. -/
def lastPathComponent (s : String) : String := (s.splitOn "/").getLastD ""

/-- The last cpu-alert timestamp recorded for a pid (0 when absent, matching
the `{'cpu': 0, 'memory': 0}` initialisation). -/
def cpuStamp (h : AlertHist) (pid : ℕ) : ℚ := ((h pid).getD (0, 0)).1

/-- The last memory-alert timestamp recorded for a pid (0 when absent). -/
def memStamp (h : AlertHist) (pid : ℕ) : ℚ := ((h pid).getD (0, 0)).2

/-- The body of the per-instance loop of `check_resource_alerts`: initialise
the pid's history entry if absent, then the cpu check, then the memory check,
each appending an alert and re-stamping its own timestamp when it fires. -/
def checkInstance (cfg : AlertConfig) (now : ℚ)
    (acc : List Alert × AlertHist) (inst : AlertInstance) :
    List Alert × AlertHist :=
  let hist0 : AlertHist :=
    if (acc.2 inst.pid).isSome then acc.2 else dictSet acc.2 inst.pid (0, 0)
  let e1 := (hist0 inst.pid).getD (0, 0)
  let fire1 : Prop :=
    inst.cpu_percent > cfg.cpu_threshold ∧ now - e1.1 > cfg.alert_cooldown
  let alerts1 := if fire1 then
      acc.1 ++ [⟨"cpu", inst.pid, lastPathComponent inst.working_dir,
                 inst.cpu_percent, cfg.cpu_threshold⟩]
    else acc.1
  let hist1 := if fire1 then dictSet hist0 inst.pid (now, e1.2) else hist0
  let e2 := (hist1 inst.pid).getD (0, 0)
  let fire2 : Prop :=
    inst.memory_mb > cfg.memory_threshold ∧ now - e2.2 > cfg.alert_cooldown
  let alerts2 := if fire2 then
      alerts1 ++ [⟨"memory", inst.pid, lastPathComponent inst.working_dir,
                  inst.memory_mb, cfg.memory_threshold⟩]
    else alerts1
  let hist2 := if fire2 then dictSet hist1 inst.pid (e2.1, now) else hist1
  (alerts2, hist2)

/-- `check_resource_alerts`, as a pure function of the configuration, the
alert history, the current instance list and the current time: returns the
emitted alerts and the new history (dead pids pruned at the end). -/
def check_resource_alerts (cfg : AlertConfig) (hist : AlertHist)
    (instances : List AlertInstance) (now : ℚ) : List Alert × AlertHist :=
  if cfg.alerts_enabled = false then ([], hist)
  else
    let r := instances.foldl (checkInstance cfg now) ([], hist)
    (r.1, fun p =>
      if p ∈ instances.map (fun i => i.pid) then r.2 p else none)

/-- A sequence of `check_resource_alerts` calls, threading the history;
returns each call's emitted alerts and the final history. -/
def runAlertCalls (cfg : AlertConfig) (hist : AlertHist) :
    List (List AlertInstance × ℚ) → List (List Alert) × AlertHist
  | [] => ([], hist)
  | c :: cs =>
    let r := check_resource_alerts cfg hist c.1 c.2
    let rest := runAlertCalls cfg r.2 cs
    (r.1 :: rest.1, rest.2)

lemma dictSet_same {α : Type} (f : ℕ → Option α) (k : ℕ) (v : α) :
    dictSet f k v k = some v := if_pos rfl

lemma dictSet_other {α : Type} (f : ℕ → Option α) (k : ℕ) (v : α)
    {k2 : ℕ} (h : k2 ≠ k) : dictSet f k v k2 = f k2 := if_neg h

lemma hist0_getD (h : AlertHist) (pid : ℕ) :
    (((if (h pid).isSome then h else dictSet h pid (0, 0)) : AlertHist) pid).getD (0, 0)
      = (h pid).getD (0, 0) := by
  cases hp : h pid with
  | some v => simp [hp]
  | none => simp [hp, dictSet_same]

lemma hist0_other (h : AlertHist) (pid : ℕ) {p : ℕ} (hne : p ≠ pid) :
    ((if (h pid).isSome then h else dictSet h pid (0, 0)) : AlertHist) p = h p := by
  cases hp : h pid with
  | some v => simp [hp]
  | none => simp [hp, dictSet_other _ _ _ hne]

lemma checkInstance_alerts (cfg : AlertConfig) (now : ℚ)
    (acc : List Alert × AlertHist) (i : AlertInstance) :
    ∃ l, (checkInstance cfg now acc i).1 = acc.1 ++ l ∧
      ∀ a ∈ l, a.pid = i.pid := by
  unfold checkInstance
  dsimp only
  split_ifs <;>
    first
    | (refine ⟨[], ?_, ?_⟩ <;> simp <;> done)
    | (refine ⟨[⟨"cpu", i.pid, lastPathComponent i.working_dir, i.cpu_percent,
                 cfg.cpu_threshold⟩], ?_, ?_⟩ <;> simp <;> done)
    | (refine ⟨[⟨"memory", i.pid, lastPathComponent i.working_dir, i.memory_mb,
                 cfg.memory_threshold⟩], ?_, ?_⟩ <;> simp <;> done)
    | (refine ⟨[⟨"cpu", i.pid, lastPathComponent i.working_dir, i.cpu_percent,
                 cfg.cpu_threshold⟩,
                ⟨"memory", i.pid, lastPathComponent i.working_dir, i.memory_mb,
                 cfg.memory_threshold⟩], ?_, ?_⟩ <;> simp <;> done)

lemma checkInstance_hist_other (cfg : AlertConfig) (now : ℚ)
    (acc : List Alert × AlertHist) (i : AlertInstance) {p : ℕ}
    (hne : p ≠ i.pid) :
    (checkInstance cfg now acc i).2 p = acc.2 p := by
  unfold checkInstance
  dsimp only
  split_ifs <;>
    simp [dictSet_other _ _ _ hne, hist0_other _ _ hne]

lemma checkInstance_entry (cfg : AlertConfig) (now : ℚ)
    (acc : List Alert × AlertHist) (i : AlertInstance) :
    ((checkInstance cfg now acc i).2 i.pid).getD (0, 0) =
      ((if i.cpu_percent > cfg.cpu_threshold ∧
            now - cpuStamp acc.2 i.pid > cfg.alert_cooldown
        then now else cpuStamp acc.2 i.pid),
       (if i.memory_mb > cfg.memory_threshold ∧
            now - memStamp acc.2 i.pid > cfg.alert_cooldown
        then now else memStamp acc.2 i.pid)) := by
  unfold checkInstance
  dsimp only
  simp only [cpuStamp, memStamp]
  rw [hist0_getD]
  by_cases h1 : i.cpu_percent > cfg.cpu_threshold ∧
      now - ((acc.2 i.pid).getD (0, 0)).1 > cfg.alert_cooldown
  · rw [if_pos h1, if_pos h1, dictSet_same, Option.getD_some]
    by_cases h2 : i.memory_mb > cfg.memory_threshold ∧
        now - ((acc.2 i.pid).getD (0, 0)).2 > cfg.alert_cooldown
    · rw [if_pos h2, if_pos h2, dictSet_same, Option.getD_some]
    · rw [if_neg h2, if_neg h2, dictSet_same, Option.getD_some]
  · rw [if_neg h1, if_neg h1, hist0_getD]
    by_cases h2 : i.memory_mb > cfg.memory_threshold ∧
        now - ((acc.2 i.pid).getD (0, 0)).2 > cfg.alert_cooldown
    · rw [if_pos h2, if_pos h2, dictSet_same, Option.getD_some]
    · rw [if_neg h2, if_neg h2, hist0_getD]

lemma checkInstance_fst (cfg : AlertConfig) (now : ℚ)
    (acc : List Alert × AlertHist) (i : AlertInstance) :
    (checkInstance cfg now acc i).1 =
      (if i.cpu_percent > cfg.cpu_threshold ∧
            now - cpuStamp acc.2 i.pid > cfg.alert_cooldown
       then acc.1 ++ [⟨"cpu", i.pid, lastPathComponent i.working_dir,
                       i.cpu_percent, cfg.cpu_threshold⟩]
       else acc.1) ++
      (if i.memory_mb > cfg.memory_threshold ∧
            now - memStamp acc.2 i.pid > cfg.alert_cooldown
       then [⟨"memory", i.pid, lastPathComponent i.working_dir,
             i.memory_mb, cfg.memory_threshold⟩]
       else []) := by
  unfold checkInstance
  dsimp only
  simp only [cpuStamp, memStamp]
  rw [hist0_getD]
  by_cases h1 : i.cpu_percent > cfg.cpu_threshold ∧
      now - ((acc.2 i.pid).getD (0, 0)).1 > cfg.alert_cooldown
  · rw [if_pos h1, if_pos h1, dictSet_same, Option.getD_some]
    by_cases h2 : i.memory_mb > cfg.memory_threshold ∧
        now - ((acc.2 i.pid).getD (0, 0)).2 > cfg.alert_cooldown
    · rw [if_pos h2, if_pos h2]
    · rw [if_neg h2, if_neg h2, List.append_nil]
  · rw [if_neg h1, if_neg h1, hist0_getD]
    by_cases h2 : i.memory_mb > cfg.memory_threshold ∧
        now - ((acc.2 i.pid).getD (0, 0)).2 > cfg.alert_cooldown
    · rw [if_pos h2, if_pos h2]
    · rw [if_neg h2, if_neg h2, List.append_nil]

lemma checkInstance_cpuStamp (cfg : AlertConfig) (now : ℚ)
    (acc : List Alert × AlertHist) (i : AlertInstance) :
    cpuStamp (checkInstance cfg now acc i).2 i.pid =
      if i.cpu_percent > cfg.cpu_threshold ∧
          now - cpuStamp acc.2 i.pid > cfg.alert_cooldown
      then now else cpuStamp acc.2 i.pid := by
  have h := checkInstance_entry cfg now acc i
  show (((checkInstance cfg now acc i).2 i.pid).getD (0, 0)).1 = _
  rw [h]

lemma checkInstance_memStamp (cfg : AlertConfig) (now : ℚ)
    (acc : List Alert × AlertHist) (i : AlertInstance) :
    memStamp (checkInstance cfg now acc i).2 i.pid =
      if i.memory_mb > cfg.memory_threshold ∧
          now - memStamp acc.2 i.pid > cfg.alert_cooldown
      then now else memStamp acc.2 i.pid := by
  have h := checkInstance_entry cfg now acc i
  show (((checkInstance cfg now acc i).2 i.pid).getD (0, 0)).2 = _
  rw [h]

lemma cpuStamp_other (cfg : AlertConfig) (now : ℚ)
    (acc : List Alert × AlertHist) (i : AlertInstance) {p : ℕ}
    (hne : p ≠ i.pid) :
    cpuStamp (checkInstance cfg now acc i).2 p = cpuStamp acc.2 p := by
  unfold cpuStamp
  rw [checkInstance_hist_other cfg now acc i hne]

lemma memStamp_other (cfg : AlertConfig) (now : ℚ)
    (acc : List Alert × AlertHist) (i : AlertInstance) {p : ℕ}
    (hne : p ≠ i.pid) :
    memStamp (checkInstance cfg now acc i).2 p = memStamp acc.2 p := by
  unfold memStamp
  rw [checkInstance_hist_other cfg now acc i hne]

lemma fold_alerts (cfg : AlertConfig) (now : ℚ) :
    ∀ (insts : List AlertInstance) (acc : List Alert × AlertHist),
      ∃ l, (insts.foldl (checkInstance cfg now) acc).1 = acc.1 ++ l := by
  intro insts
  induction insts with
  | nil => exact fun acc => ⟨[], by simp⟩
  | cons i rest ih =>
    intro acc
    obtain ⟨l1, hl1, -⟩ := checkInstance_alerts cfg now acc i
    obtain ⟨l2, hl2⟩ := ih (checkInstance cfg now acc i)
    exact ⟨l1 ++ l2, by rw [List.foldl_cons, hl2, hl1, List.append_assoc]⟩

lemma fold_cpu_suppress (cfg : AlertConfig) (now : ℚ) (pid : ℕ) (t : ℚ)
    (hcool : ¬ now - t > cfg.alert_cooldown) :
    ∀ (insts : List AlertInstance) (acc : List Alert × AlertHist),
      cpuStamp acc.2 pid = t →
      (∀ a ∈ acc.1, ¬(a.typ = "cpu" ∧ a.pid = pid)) →
      cpuStamp (insts.foldl (checkInstance cfg now) acc).2 pid = t ∧
      ∀ a ∈ (insts.foldl (checkInstance cfg now) acc).1,
        ¬(a.typ = "cpu" ∧ a.pid = pid) := by
  intro insts
  induction insts with
  | nil => exact fun acc h1 h2 => ⟨h1, h2⟩
  | cons i rest ih =>
    intro acc hstamp halerts
    rw [List.foldl_cons]
    apply ih
    · by_cases hpid : pid = i.pid
      · subst hpid
        rw [checkInstance_cpuStamp, if_neg]
        · exact hstamp
        · rw [hstamp]; exact fun h => hcool h.2
      · rw [cpuStamp_other cfg now acc i hpid]; exact hstamp
    · intro a ha
      rw [checkInstance_fst] at ha
      rcases List.mem_append.mp ha with h | h
      · split_ifs at h with hf
        · rcases List.mem_append.mp h with h2 | h2
          · exact halerts a h2
          · rw [List.mem_singleton] at h2
            subst h2
            rintro ⟨-, hp⟩
            have hp2 : i.pid = pid := hp
            rw [hp2, hstamp] at hf
            exact hcool hf.2
        · exact halerts a h
      · split_ifs at h with hf
        · rw [List.mem_singleton] at h
          subst h
          rintro ⟨htyp, -⟩
          simp at htyp
        · exact absurd h (List.not_mem_nil a)

lemma fold_cpu_refire (cfg : AlertConfig) (now : ℚ) (pid : ℕ) (t : ℚ)
    (hcool : now - t > cfg.alert_cooldown) :
    ∀ (insts : List AlertInstance) (acc : List Alert × AlertHist),
      cpuStamp acc.2 pid = t →
      (∃ i ∈ insts, i.pid = pid ∧ i.cpu_percent > cfg.cpu_threshold) →
      ∃ a ∈ (insts.foldl (checkInstance cfg now) acc).1,
        a.typ = "cpu" ∧ a.pid = pid := by
  intro insts
  induction insts with
  | nil =>
    rintro acc - ⟨i, hi, -⟩
    exact absurd hi (List.not_mem_nil i)
  | cons i rest ih =>
    rintro acc hstamp ⟨j, hj, hjpid, hjcpu⟩
    rw [List.foldl_cons]
    rcases List.mem_cons.mp hj with rfl | hjrest
    · have hfire : j.cpu_percent > cfg.cpu_threshold ∧
          now - cpuStamp acc.2 j.pid > cfg.alert_cooldown :=
        ⟨hjcpu, by rw [hjpid, hstamp]; exact hcool⟩
      have hmem : ∃ a ∈ (checkInstance cfg now acc j).1,
          a.typ = "cpu" ∧ a.pid = pid := by
        rw [checkInstance_fst, if_pos hfire]
        exact ⟨⟨"cpu", j.pid, lastPathComponent j.working_dir, j.cpu_percent,
                cfg.cpu_threshold⟩, by simp, rfl, hjpid⟩
      obtain ⟨a, ha, hprop⟩ := hmem
      obtain ⟨l, hl⟩ := fold_alerts cfg now rest (checkInstance cfg now acc j)
      exact ⟨a, by rw [hl]; exact List.mem_append_left _ ha, hprop⟩
    · by_cases hfire : i.cpu_percent > cfg.cpu_threshold ∧
          now - cpuStamp acc.2 i.pid > cfg.alert_cooldown
      · by_cases hpid : i.pid = pid
        · have hmem : ∃ a ∈ (checkInstance cfg now acc i).1,
              a.typ = "cpu" ∧ a.pid = pid := by
            rw [checkInstance_fst, if_pos hfire]
            exact ⟨⟨"cpu", i.pid, lastPathComponent i.working_dir, i.cpu_percent,
                    cfg.cpu_threshold⟩, by simp, rfl, hpid⟩
          obtain ⟨a, ha, hprop⟩ := hmem
          obtain ⟨l, hl⟩ := fold_alerts cfg now rest (checkInstance cfg now acc i)
          exact ⟨a, by rw [hl]; exact List.mem_append_left _ ha, hprop⟩
        · apply ih
          · rw [cpuStamp_other cfg now acc i (fun h => hpid h.symm)]
            exact hstamp
          · exact ⟨j, hjrest, hjpid, hjcpu⟩
      · apply ih
        · by_cases hpid : pid = i.pid
          · subst hpid
            rw [checkInstance_cpuStamp, if_neg hfire]
            exact hstamp
          · rw [cpuStamp_other cfg now acc i hpid]; exact hstamp
        · exact ⟨j, hjrest, hjpid, hjcpu⟩

lemma fold_mem_suppress (cfg : AlertConfig) (now : ℚ) (pid : ℕ) (u : ℚ)
    (hcool : ¬ now - u > cfg.alert_cooldown) :
    ∀ (insts : List AlertInstance) (acc : List Alert × AlertHist),
      memStamp acc.2 pid = u →
      (∀ a ∈ acc.1, ¬(a.typ = "memory" ∧ a.pid = pid)) →
      memStamp (insts.foldl (checkInstance cfg now) acc).2 pid = u ∧
      ∀ a ∈ (insts.foldl (checkInstance cfg now) acc).1,
        ¬(a.typ = "memory" ∧ a.pid = pid) := by
  intro insts
  induction insts with
  | nil => exact fun acc h1 h2 => ⟨h1, h2⟩
  | cons i rest ih =>
    intro acc hstamp halerts
    rw [List.foldl_cons]
    apply ih
    · by_cases hpid : pid = i.pid
      · subst hpid
        rw [checkInstance_memStamp, if_neg]
        · exact hstamp
        · rw [hstamp]; exact fun h => hcool h.2
      · rw [memStamp_other cfg now acc i hpid]; exact hstamp
    · intro a ha
      rw [checkInstance_fst] at ha
      rcases List.mem_append.mp ha with h | h
      · split_ifs at h with hf
        · rcases List.mem_append.mp h with h2 | h2
          · exact halerts a h2
          · rw [List.mem_singleton] at h2
            subst h2
            rintro ⟨htyp, -⟩
            simp at htyp
        · exact halerts a h
      · split_ifs at h with hf
        · rw [List.mem_singleton] at h
          subst h
          rintro ⟨-, hp⟩
          have hp2 : i.pid = pid := hp
          rw [hp2, hstamp] at hf
          exact hcool hf.2
        · exact absurd h (List.not_mem_nil a)

lemma fold_mem_refire (cfg : AlertConfig) (now : ℚ) (pid : ℕ) (u : ℚ)
    (hcool : now - u > cfg.alert_cooldown) :
    ∀ (insts : List AlertInstance) (acc : List Alert × AlertHist),
      memStamp acc.2 pid = u →
      (∃ i ∈ insts, i.pid = pid ∧ i.memory_mb > cfg.memory_threshold) →
      ∃ a ∈ (insts.foldl (checkInstance cfg now) acc).1,
        a.typ = "memory" ∧ a.pid = pid := by
  intro insts
  induction insts with
  | nil =>
    rintro acc - ⟨i, hi, -⟩
    exact absurd hi (List.not_mem_nil i)
  | cons i rest ih =>
    rintro acc hstamp ⟨j, hj, hjpid, hjmem⟩
    rw [List.foldl_cons]
    rcases List.mem_cons.mp hj with rfl | hjrest
    · have hfire : j.memory_mb > cfg.memory_threshold ∧
          now - memStamp acc.2 j.pid > cfg.alert_cooldown :=
        ⟨hjmem, by rw [hjpid, hstamp]; exact hcool⟩
      have hmem : ∃ a ∈ (checkInstance cfg now acc j).1,
          a.typ = "memory" ∧ a.pid = pid := by
        rw [checkInstance_fst, if_pos hfire]
        refine ⟨⟨"memory", j.pid, lastPathComponent j.working_dir, j.memory_mb,
                cfg.memory_threshold⟩, ?_, rfl, hjpid⟩
        exact List.mem_append_right _ (List.mem_singleton.mpr rfl)
      obtain ⟨a, ha, hprop⟩ := hmem
      obtain ⟨l, hl⟩ := fold_alerts cfg now rest (checkInstance cfg now acc j)
      exact ⟨a, by rw [hl]; exact List.mem_append_left _ ha, hprop⟩
    · by_cases hfire : i.memory_mb > cfg.memory_threshold ∧
          now - memStamp acc.2 i.pid > cfg.alert_cooldown
      · by_cases hpid : i.pid = pid
        · have hmem : ∃ a ∈ (checkInstance cfg now acc i).1,
              a.typ = "memory" ∧ a.pid = pid := by
            rw [checkInstance_fst, if_pos hfire]
            refine ⟨⟨"memory", i.pid, lastPathComponent i.working_dir, i.memory_mb,
                    cfg.memory_threshold⟩, ?_, rfl, hpid⟩
            exact List.mem_append_right _ (List.mem_singleton.mpr rfl)
          obtain ⟨a, ha, hprop⟩ := hmem
          obtain ⟨l, hl⟩ := fold_alerts cfg now rest (checkInstance cfg now acc i)
          exact ⟨a, by rw [hl]; exact List.mem_append_left _ ha, hprop⟩
        · apply ih
          · rw [memStamp_other cfg now acc i (fun h => hpid h.symm)]
            exact hstamp
          · exact ⟨j, hjrest, hjpid, hjmem⟩
      · apply ih
        · by_cases hpid : pid = i.pid
          · subst hpid
            rw [checkInstance_memStamp, if_neg hfire]
            exact hstamp
          · rw [memStamp_other cfg now acc i hpid]; exact hstamp
        · exact ⟨j, hjrest, hjpid, hjmem⟩

lemma call_cpu_suppress (cfg : AlertConfig) (hist : AlertHist)
    (insts : List AlertInstance) (now : ℚ) (pid : ℕ) (t : ℚ)
    (hstamp : cpuStamp hist pid = t)
    (hcool : ¬ now - t > cfg.alert_cooldown) :
    (∀ a ∈ (check_resource_alerts cfg hist insts now).1,
      ¬(a.typ = "cpu" ∧ a.pid = pid)) ∧
    (pid ∈ insts.map (fun i => i.pid) →
      cpuStamp (check_resource_alerts cfg hist insts now).2 pid = t) := by
  unfold check_resource_alerts
  by_cases he : cfg.alerts_enabled = false
  · rw [if_pos he]
    exact ⟨fun a ha => absurd ha (List.not_mem_nil a), fun _ => hstamp⟩
  · rw [if_neg he]
    dsimp only
    have h := fold_cpu_suppress cfg now pid t hcool insts ([], hist) hstamp
      (fun a ha => absurd ha (List.not_mem_nil a))
    refine ⟨h.2, fun hpmem => ?_⟩
    show ((if pid ∈ insts.map (fun i => i.pid)
            then (insts.foldl (checkInstance cfg now) ([], hist)).2 pid
            else none).getD (0, 0)).1 = t
    rw [if_pos hpmem]
    exact h.1

lemma call_mem_suppress (cfg : AlertConfig) (hist : AlertHist)
    (insts : List AlertInstance) (now : ℚ) (pid : ℕ) (u : ℚ)
    (hstamp : memStamp hist pid = u)
    (hcool : ¬ now - u > cfg.alert_cooldown) :
    (∀ a ∈ (check_resource_alerts cfg hist insts now).1,
      ¬(a.typ = "memory" ∧ a.pid = pid)) ∧
    (pid ∈ insts.map (fun i => i.pid) →
      memStamp (check_resource_alerts cfg hist insts now).2 pid = u) := by
  unfold check_resource_alerts
  by_cases he : cfg.alerts_enabled = false
  · rw [if_pos he]
    exact ⟨fun a ha => absurd ha (List.not_mem_nil a), fun _ => hstamp⟩
  · rw [if_neg he]
    dsimp only
    have h := fold_mem_suppress cfg now pid u hcool insts ([], hist) hstamp
      (fun a ha => absurd ha (List.not_mem_nil a))
    refine ⟨h.2, fun hpmem => ?_⟩
    show ((if pid ∈ insts.map (fun i => i.pid)
            then (insts.foldl (checkInstance cfg now) ([], hist)).2 pid
            else none).getD (0, 0)).2 = u
    rw [if_pos hpmem]
    exact h.1

lemma call_cpu_refire (cfg : AlertConfig) (hist : AlertHist)
    (insts : List AlertInstance) (now : ℚ) (pid : ℕ) (t : ℚ)
    (he : cfg.alerts_enabled = true) (hstamp : cpuStamp hist pid = t)
    (hcool : now - t > cfg.alert_cooldown)
    (hex : ∃ i ∈ insts, i.pid = pid ∧ i.cpu_percent > cfg.cpu_threshold) :
    ∃ a ∈ (check_resource_alerts cfg hist insts now).1,
      a.typ = "cpu" ∧ a.pid = pid := by
  unfold check_resource_alerts
  rw [if_neg (by rw [he]; exact fun h => by cases h)]
  dsimp only
  exact fold_cpu_refire cfg now pid t hcool insts ([], hist) hstamp hex

lemma call_mem_refire (cfg : AlertConfig) (hist : AlertHist)
    (insts : List AlertInstance) (now : ℚ) (pid : ℕ) (u : ℚ)
    (he : cfg.alerts_enabled = true) (hstamp : memStamp hist pid = u)
    (hcool : now - u > cfg.alert_cooldown)
    (hex : ∃ i ∈ insts, i.pid = pid ∧ i.memory_mb > cfg.memory_threshold) :
    ∃ a ∈ (check_resource_alerts cfg hist insts now).1,
      a.typ = "memory" ∧ a.pid = pid := by
  unfold check_resource_alerts
  rw [if_neg (by rw [he]; exact fun h => by cases h)]
  dsimp only
  exact fold_mem_refire cfg now pid u hcool insts ([], hist) hstamp hex

lemma runCalls_cpu_suppress (cfg : AlertConfig) (pid : ℕ) (t : ℚ) :
    ∀ (calls : List (List AlertInstance × ℚ)) (hist : AlertHist),
      cpuStamp hist pid = t →
      (∀ c ∈ calls, pid ∈ c.1.map (fun i => i.pid) ∧
        ¬ c.2 - t > cfg.alert_cooldown) →
      (∀ out ∈ (runAlertCalls cfg hist calls).1, ∀ a ∈ out,
        ¬(a.typ = "cpu" ∧ a.pid = pid)) ∧
      cpuStamp (runAlertCalls cfg hist calls).2 pid = t := by
  intro calls
  induction calls with
  | nil =>
    intro hist h1 _
    exact ⟨fun out hout => absurd hout (List.not_mem_nil out), h1⟩
  | cons c cs ih =>
    intro hist h1 h2
    have hc := h2 c (List.mem_cons_self c cs)
    have hcall := call_cpu_suppress cfg hist c.1 c.2 pid t h1 hc.2
    have hnext := ih (check_resource_alerts cfg hist c.1 c.2).2
      (hcall.2 hc.1) (fun d hd => h2 d (List.mem_cons_of_mem c hd))
    unfold runAlertCalls
    dsimp only
    refine ⟨fun out hout => ?_, hnext.2⟩
    rcases List.mem_cons.mp hout with rfl | h
    · exact hcall.1
    · exact hnext.1 out h

lemma runCalls_mem_suppress (cfg : AlertConfig) (pid : ℕ) (u : ℚ) :
    ∀ (calls : List (List AlertInstance × ℚ)) (hist : AlertHist),
      memStamp hist pid = u →
      (∀ c ∈ calls, pid ∈ c.1.map (fun i => i.pid) ∧
        ¬ c.2 - u > cfg.alert_cooldown) →
      (∀ out ∈ (runAlertCalls cfg hist calls).1, ∀ a ∈ out,
        ¬(a.typ = "memory" ∧ a.pid = pid)) ∧
      memStamp (runAlertCalls cfg hist calls).2 pid = u := by
  intro calls
  induction calls with
  | nil =>
    intro hist h1 _
    exact ⟨fun out hout => absurd hout (List.not_mem_nil out), h1⟩
  | cons c cs ih =>
    intro hist h1 h2
    have hc := h2 c (List.mem_cons_self c cs)
    have hcall := call_mem_suppress cfg hist c.1 c.2 pid u h1 hc.2
    have hnext := ih (check_resource_alerts cfg hist c.1 c.2).2
      (hcall.2 hc.1) (fun d hd => h2 d (List.mem_cons_of_mem c hd))
    unfold runAlertCalls
    dsimp only
    refine ⟨fun out hout => ?_, hnext.2⟩
    rcases List.mem_cons.mp hout with rfl | h
    · exact hcall.1
    · exact hnext.1 out h

/-- **C10.** Per pid and alert type, once an alert is stamped at time `t`
(resp. `u` for memory), every later sequence of `check_resource_alerts` calls
whose times stay within the cooldown window of the stamp emits no further
alert of that pid/type (regardless of the thresholds being exceeded, provided
the pid stays in the instance list so its history entry is not pruned), and
the alert re-fires on the first call past the cooldown while the threshold is
still exceeded. -/
theorem alert_cooldown_suppresses_and_refires (cfg : AlertConfig)
    (hist : AlertHist) (pid : ℕ) (t u : ℚ)
    (hcpu : cpuStamp hist pid = t) (hmem : memStamp hist pid = u) :
    ((∀ calls : List (List AlertInstance × ℚ),
        (∀ c ∈ calls, pid ∈ c.1.map (fun i => i.pid) ∧
          ¬ c.2 - t > cfg.alert_cooldown) →
        ∀ out ∈ (runAlertCalls cfg hist calls).1, ∀ a ∈ out,
          ¬(a.typ = "cpu" ∧ a.pid = pid)) ∧
     (∀ (insts : List AlertInstance) (now : ℚ),
        cfg.alerts_enabled = true →
        (∃ i ∈ insts, i.pid = pid ∧ i.cpu_percent > cfg.cpu_threshold) →
        now - t > cfg.alert_cooldown →
        ∃ a ∈ (check_resource_alerts cfg hist insts now).1,
          a.typ = "cpu" ∧ a.pid = pid)) ∧
    ((∀ calls : List (List AlertInstance × ℚ),
        (∀ c ∈ calls, pid ∈ c.1.map (fun i => i.pid) ∧
          ¬ c.2 - u > cfg.alert_cooldown) →
        ∀ out ∈ (runAlertCalls cfg hist calls).1, ∀ a ∈ out,
          ¬(a.typ = "memory" ∧ a.pid = pid)) ∧
     (∀ (insts : List AlertInstance) (now : ℚ),
        cfg.alerts_enabled = true →
        (∃ i ∈ insts, i.pid = pid ∧ i.memory_mb > cfg.memory_threshold) →
        now - u > cfg.alert_cooldown →
        ∃ a ∈ (check_resource_alerts cfg hist insts now).1,
          a.typ = "memory" ∧ a.pid = pid)) :=
  ⟨⟨fun calls hcalls => (runCalls_cpu_suppress cfg pid t calls hist hcpu hcalls).1,
    fun insts now he hex hc => call_cpu_refire cfg hist insts now pid t he hcpu hc hex⟩,
   ⟨fun calls hcalls => (runCalls_mem_suppress cfg pid u calls hist hmem hcalls).1,
    fun insts now he hex hc => call_mem_refire cfg hist insts now pid u he hmem hc hex⟩⟩

/-- Witness for C10: pid 5 was stamped for both alert types at time 100,
cooldown 60; a call at time 130 with cpu and memory over threshold emits
nothing for pid 5, and a call at time 170 re-fires both alert types. -/
theorem alert_cooldown_suppresses_and_refires_witness :
    cpuStamp (dictSet (fun _ => none) 5 ((100 : ℚ), (100 : ℚ))) 5 = 100 ∧
    ((runAlertCalls ⟨true, 80, 1000, 60⟩
        (dictSet (fun _ => none) 5 ((100 : ℚ), (100 : ℚ)))
        [([⟨5, "/home/proj", 90, 1500⟩], 130)]).1.all
      (fun out => out.all (fun a => !(a.pid == 5)))) = true ∧
    ((check_resource_alerts ⟨true, 80, 1000, 60⟩
        (dictSet (fun _ => none) 5 ((100 : ℚ), (100 : ℚ)))
        [⟨5, "/home/proj", 90, 1500⟩] 170).1.any
      (fun a => a.typ == "cpu" && a.pid == 5)) = true ∧
    ((check_resource_alerts ⟨true, 80, 1000, 60⟩
        (dictSet (fun _ => none) 5 ((100 : ℚ), (100 : ℚ)))
        [⟨5, "/home/proj", 90, 1500⟩] 170).1.any
      (fun a => a.typ == "memory" && a.pid == 5)) = true := by
  have h := alert_cooldown_suppresses_and_refires ⟨true, 80, 1000, 60⟩
    (dictSet (fun _ => none) 5 ((100 : ℚ), (100 : ℚ))) 5 100 100 rfl rfl
  refine ⟨rfl, ?_, ?_, ?_⟩
  · rw [List.all_eq_true]
    intro out hout
    rw [List.all_eq_true]
    intro a ha
    have hcpu := h.1.1 [([⟨5, "/home/proj", 90, 1500⟩], 130)]
      (by
        intro c hc
        rw [List.mem_singleton] at hc
        subst hc
        exact ⟨by simp, by norm_num⟩)
      out hout a ha
    have hmem := h.2.1 [([⟨5, "/home/proj", 90, 1500⟩], 130)]
      (by
        intro c hc
        rw [List.mem_singleton] at hc
        subst hc
        exact ⟨by simp, by norm_num⟩)
      out hout a ha
    have halert : a.typ = "cpu" ∨ a.typ = "memory" := by
      have hrun : (runAlertCalls ⟨true, 80, 1000, 60⟩
          (dictSet (fun _ => none) 5 ((100 : ℚ), (100 : ℚ)))
          [([⟨5, "/home/proj", 90, 1500⟩], 130)]).1 =
          [(check_resource_alerts ⟨true, 80, 1000, 60⟩
            (dictSet (fun _ => none) 5 ((100 : ℚ), (100 : ℚ)))
            [⟨5, "/home/proj", 90, 1500⟩] 130).1] := rfl
      rw [hrun, List.mem_singleton] at hout
      subst hout
      rw [check_resource_alerts] at ha
      rw [if_neg (by simp)] at ha
      dsimp only at ha
      rw [List.foldl_cons, List.foldl_nil, checkInstance_fst] at ha
      rcases List.mem_append.mp ha with hx | hx
      · split_ifs at hx with hf
        · rcases List.mem_append.mp hx with hy | hy
          · exact absurd hy (List.not_mem_nil a)
          · rw [List.mem_singleton] at hy
            subst hy
            exact Or.inl rfl
        · exact absurd hx (List.not_mem_nil a)
      · split_ifs at hx with hf
        · rw [List.mem_singleton] at hx
          subst hx
          exact Or.inr rfl
        · exact absurd hx (List.not_mem_nil a)
    simp only [Bool.not_eq_true', beq_eq_false_iff_ne, ne_eq]
    intro hp
    rcases halert with ht | ht
    · exact hcpu ⟨ht, hp⟩
    · exact hmem ⟨ht, hp⟩
  · obtain ⟨a, ha, h1, h2⟩ := h.1.2 [⟨5, "/home/proj", 90, 1500⟩] 170 rfl
      ⟨⟨5, "/home/proj", 90, 1500⟩, List.mem_singleton.mpr rfl, rfl, by norm_num⟩
      (by norm_num)
    rw [List.any_eq_true]
    exact ⟨a, ha, by simp [h1, h2]⟩
  · obtain ⟨a, ha, h1, h2⟩ := h.2.2 [⟨5, "/home/proj", 90, 1500⟩] 170 rfl
      ⟨⟨5, "/home/proj", 90, 1500⟩, List.mem_singleton.mpr rfl, rfl, by norm_num⟩
      (by norm_num)
    rw [List.any_eq_true]
    exact ⟨a, ha, by simp [h1, h2]⟩

/-! ### Projects table (database_schema.py, get_or_create_project) -/

/-- A row of the `projects` table (creation timestamp elided: the operations
under scrutiny never read it). -/
structure ProjectRow where
  id : ℕ
  name : String
  path : String
  last_seen : ℚ
deriving DecidableEq

/-- The `projects` table plus the AUTOINCREMENT counter. -/
structure ProjectsTable where
  rows : List ProjectRow
  nextId : ℕ
deriving DecidableEq

/-- The project-name extraction of `get_or_create_project`:
`os.path.basename`, falling back to the second-to-last path component (or
"root"), with empty/'Unknown' directories mapped to ("unknown", "Unknown").
Returns (name, normalised path). -/
def extractProject (working_dir : String) : String × String :=
  if working_dir ≠ "" ∧ working_dir ≠ "Unknown" then
    let parts := working_dir.splitOn "/"
    let base := parts.getLastD ""
    let name :=
      if base ≠ "" then base
      else if parts.length > 1 then parts.getD (parts.length - 2) "" else "root"
    (name, working_dir)
  else ("unknown", "Unknown")

/-- The `WHERE path = ? OR name = ?` match used by the lookup. -/
def matchesKey (name path : String) (r : ProjectRow) : Bool :=
  r.path == path || r.name == name

/-- `get_or_create_project`: look the key up; on a hit, touch `last_seen` and
return the existing id; on a miss, insert a fresh row and return its id. -/
def get_or_create_project (tbl : ProjectsTable) (working_dir : String)
    (now : ℚ) : ℕ × ProjectsTable :=
  let pn := extractProject working_dir
  match tbl.rows.find? (matchesKey pn.1 pn.2) with
  | some r =>
      (r.id, ⟨tbl.rows.map (fun x =>
        if x.id = r.id then { x with last_seen := now } else x), tbl.nextId⟩)
  | none =>
      (tbl.nextId,
       ⟨tbl.rows ++ [⟨tbl.nextId, pn.1, pn.2, now⟩], tbl.nextId + 1⟩)

lemma matchesKey_update (name path : String) (i : ℕ) (now : ℚ)
    (x : ProjectRow) :
    matchesKey name path
      (if x.id = i then { x with last_seen := now } else x) =
    matchesKey name path x := by
  split_ifs <;> rfl

lemma find?_map_invariant {α : Type} (p : α → Bool) (f : α → α)
    (hf : ∀ x, p (f x) = p x) :
    ∀ l : List α, (l.map f).find? p = (l.find? p).map f := by
  intro l
  induction l with
  | nil => rfl
  | cons x xs ih =>
    rw [List.map_cons, List.find?_cons, List.find?_cons, hf x]
    cases hp : p x
    · exact ih
    · rfl

lemma filter_map_invariant {α : Type} (p : α → Bool) (f : α → α)
    (hf : ∀ x, p (f x) = p x) :
    ∀ l : List α, (l.map f).filter p = (l.filter p).map f := by
  intro l
  induction l with
  | nil => rfl
  | cons x xs ih =>
    rw [List.map_cons, List.filter_cons, List.filter_cons, hf x]
    cases hp : p x
    · simpa using ih
    · simpa using ih

lemma upd_id (i : ℕ) (now : ℚ) (x : ProjectRow) :
    (if x.id = i then { x with last_seen := now } else x).id = x.id := by
  split_ifs <;> rfl

/-- **C3.** `resolveProject` is idempotent: under a well-formed table (at
most one row matches the path/name key — guaranteed by the UNIQUE name
constraint plus the get-or-create discipline), calling it twice with the same
working directory returns the same project id both times, the second call
adds no row, and exactly one row matching the key remains. -/
lemma gocp_hit (tbl : ProjectsTable) (wd : String) (now : ℚ) (r : ProjectRow)
    (hfind : tbl.rows.find?
      (matchesKey (extractProject wd).1 (extractProject wd).2) = some r) :
    get_or_create_project tbl wd now =
      (r.id, ⟨tbl.rows.map (fun x =>
        if x.id = r.id then { x with last_seen := now } else x), tbl.nextId⟩) := by
  unfold get_or_create_project
  dsimp only
  rw [hfind]

lemma gocp_miss (tbl : ProjectsTable) (wd : String) (now : ℚ)
    (hfind : tbl.rows.find?
      (matchesKey (extractProject wd).1 (extractProject wd).2) = none) :
    get_or_create_project tbl wd now =
      (tbl.nextId,
       ⟨tbl.rows ++ [⟨tbl.nextId, (extractProject wd).1, (extractProject wd).2, now⟩],
        tbl.nextId + 1⟩) := by
  unfold get_or_create_project
  dsimp only
  rw [hfind]

theorem resolveProject_idempotent (tbl : ProjectsTable) (wd : String)
    (now1 now2 : ℚ)
    (hdup : (tbl.rows.filter
      (matchesKey (extractProject wd).1 (extractProject wd).2)).length ≤ 1) :
    (get_or_create_project (get_or_create_project tbl wd now1).2 wd now2).1 =
      (get_or_create_project tbl wd now1).1 ∧
    (get_or_create_project (get_or_create_project tbl wd now1).2 wd now2).2.rows.length =
      (get_or_create_project tbl wd now1).2.rows.length ∧
    ((get_or_create_project (get_or_create_project tbl wd now1).2 wd now2).2.rows.filter
      (matchesKey (extractProject wd).1 (extractProject wd).2)).length = 1 := by
  cases hfind : tbl.rows.find?
      (matchesKey (extractProject wd).1 (extractProject wd).2) with
  | some r =>
    have hinv := fun x => matchesKey_update (extractProject wd).1
      (extractProject wd).2 r.id now1 x
    rw [gocp_hit tbl wd now1 r hfind]
    dsimp only
    have hfind2 : ((tbl.rows.map (fun x =>
        if x.id = r.id then { x with last_seen := now1 } else x))).find?
        (matchesKey (extractProject wd).1 (extractProject wd).2) =
        some (if r.id = r.id then { r with last_seen := now1 } else r) := by
      rw [find?_map_invariant _ _ hinv, hfind]
      rfl
    rw [gocp_hit ⟨tbl.rows.map (fun x =>
        if x.id = r.id then { x with last_seen := now1 } else x), tbl.nextId⟩
      wd now2 _ hfind2]
    have hrid : (if r.id = r.id then { r with last_seen := now1 } else r).id = r.id :=
      upd_id r.id now1 r
    refine ⟨hrid, by simp, ?_⟩
    have hinv2 := fun x => matchesKey_update (extractProject wd).1
      (extractProject wd).2 (if r.id = r.id then { r with last_seen := now1 } else r).id
      now2 x
    have hmem := List.mem_of_find?_eq_some hfind
    have hkey := List.find?_some hfind
    have hone : (tbl.rows.filter
        (matchesKey (extractProject wd).1 (extractProject wd).2)).length = 1 := by
      have hpos : 0 < (tbl.rows.filter
          (matchesKey (extractProject wd).1 (extractProject wd).2)).length :=
        List.length_pos.mpr (fun hnil => by
          have hin := List.mem_filter.mpr ⟨hmem, hkey⟩
          rw [hnil] at hin
          exact absurd hin (List.not_mem_nil r))
      omega
    dsimp only
    rw [filter_map_invariant _ _ hinv2, filter_map_invariant _ _ hinv,
      List.length_map, List.length_map, hone]
  | none =>
    rw [gocp_miss tbl wd now1 hfind]
    dsimp only
    have hnew : matchesKey (extractProject wd).1 (extractProject wd).2
        ⟨tbl.nextId, (extractProject wd).1, (extractProject wd).2, now1⟩ = true := by
      simp [matchesKey]
    have hfind2 : ((tbl.rows ++
        [⟨tbl.nextId, (extractProject wd).1, (extractProject wd).2, now1⟩] :
          List ProjectRow)).find?
        (matchesKey (extractProject wd).1 (extractProject wd).2) =
        some ⟨tbl.nextId, (extractProject wd).1, (extractProject wd).2, now1⟩ := by
      rw [List.find?_append, hfind]
      simp [hnew]
    rw [gocp_hit ⟨tbl.rows ++
        [(⟨tbl.nextId, (extractProject wd).1, (extractProject wd).2, now1⟩ :
          ProjectRow)],
        tbl.nextId + 1⟩ wd now2 _ hfind2]
    refine ⟨rfl, by simp, ?_⟩
    have hinv2 := fun x => matchesKey_update (extractProject wd).1
      (extractProject wd).2
      (⟨tbl.nextId, (extractProject wd).1, (extractProject wd).2, now1⟩ :
        ProjectRow).id now2 x
    dsimp only
    rw [filter_map_invariant _ _ hinv2, List.length_map, List.filter_append,
      List.length_append]
    have hnil : tbl.rows.filter
        (matchesKey (extractProject wd).1 (extractProject wd).2) = [] :=
      List.filter_eq_nil.mpr (fun a ha => by
        have hnone := List.find?_eq_none.mp hfind a ha
        simpa using hnone)
    rw [hnil]
    simp [hnew]

/-- Witness for C3: an empty table, a concrete path; both calls return id 0
and a single matching row remains. -/
theorem resolveProject_idempotent_witness :
    ((⟨[], 0⟩ : ProjectsTable).rows.filter
      (matchesKey (extractProject "/home/u/proj").1
        (extractProject "/home/u/proj").2)).length ≤ 1 ∧
    (get_or_create_project
        (get_or_create_project ⟨[], 0⟩ "/home/u/proj" 10).2 "/home/u/proj" 20).1 =
      (get_or_create_project ⟨[], 0⟩ "/home/u/proj" 10).1 ∧
    ((get_or_create_project
        (get_or_create_project ⟨[], 0⟩ "/home/u/proj" 10).2 "/home/u/proj" 20).2.rows.filter
      (matchesKey (extractProject "/home/u/proj").1
        (extractProject "/home/u/proj").2)).length = 1 := by
  have h := resolveProject_idempotent ⟨[], 0⟩ "/home/u/proj" 10 20 (by decide)
  exact ⟨by decide, h.1, h.2.2⟩

/-! ### Sessions table (database_schema.py, end_session) -/

/-- Python `int()` applied to a rational — declared above as `pyInt`. A row
of the `process_sessions` table (fields the operation touches). -/
structure SessionRow where
  id : ℕ
  start_time : ℚ
  end_time : Option ℚ
  duration_seconds : Option ℤ
  status : String
deriving DecidableEq

/-- `end_session`: fetch the session's start time; if the row exists, stamp
`end_time` with the current time, recompute the duration and set the status
to 'ended'; a missing row is silently ignored. -/
def end_session (tbl : List SessionRow) (sid : ℕ) (now : ℚ) : List SessionRow :=
  match tbl.find? (fun r => r.id == sid) with
  | none => tbl
  | some r =>
      tbl.map (fun x =>
        if x.id = sid then
          { x with end_time := some now,
                   duration_seconds := some (pyInt (now - r.start_time)),
                   status := "ended" }
        else x)

/-- **C4 counterexample.** A session closed at time 10 (duration 10) is
re-stamped by a second `end_session` call at time 20: the row's end time and
duration change, so the call is not a no-op. -/
theorem end_session_counterexample :
    end_session [⟨1, 0, some 10, some 10, "ended"⟩] 1 20 =
      [⟨1, 0, some 20, some 20, "ended"⟩] ∧
    end_session [⟨1, 0, some 10, some 10, "ended"⟩] 1 20 ≠
      [⟨1, 0, some 10, some 10, "ended"⟩] := by
  have hcomp : end_session [⟨1, 0, some 10, some 10, "ended"⟩] 1 20 =
      [⟨1, 0, some 20, some 20, "ended"⟩] := by
    unfold end_session
    norm_num [List.find?, pyInt]
  refine ⟨hcomp, ?_⟩
  rw [hcomp]
  intro h
  have := List.head_eq_of_cons_eq h
  simp at this

/-- **C4 (amended).** `closeSession` on an already-closed session raises no
error (the operation is total), but it is not a no-op: it re-stamps the end
time to the current time, recomputes `duration_seconds` from the stored start
to the new time, and leaves the status 'ended'; the table keeps its length. -/
theorem end_session_amended (tbl : List SessionRow) (sid : ℕ) (now : ℚ)
    (r : SessionRow)
    (hfind : tbl.find? (fun x => x.id == sid) = some r)
    (hended : r.status = "ended") :
    (end_session tbl sid now).length = tbl.length ∧
    ∀ x ∈ end_session tbl sid now, x.id = sid →
      x.end_time = some now ∧
      x.duration_seconds = some (pyInt (now - r.start_time)) ∧
      x.status = "ended" := by
  unfold end_session
  rw [hfind]
  refine ⟨List.length_map .., ?_⟩
  intro x hx hid
  obtain ⟨y, hy, rfl⟩ := List.mem_map.mp hx
  by_cases hyid : y.id = sid
  · rw [if_pos hyid]
    exact ⟨rfl, rfl, rfl⟩
  · rw [if_neg hyid] at hid
    exact absurd hid hyid

/-- Witness for C4 (amended) at a concrete closed session. -/
theorem end_session_amended_witness :
    (([⟨1, 0, some 10, some 10, "ended"⟩] : List SessionRow).find?
      (fun x => x.id == 1) = some ⟨1, 0, some 10, some 10, "ended"⟩) ∧
    (end_session [⟨1, 0, some 10, some 10, "ended"⟩] 1 20).length = 1 := by
  have h := end_session_amended [⟨1, 0, some 10, some 10, "ended"⟩] 1 20
    ⟨1, 0, some 10, some 10, "ended"⟩ rfl rfl
  exact ⟨rfl, h.1⟩

/-! ### Process tree snapshots (claude_monitor_db.py convert_tree_to_db_nodes,
database_schema.py record_process_tree) -/

/-- A `ProcessNode` from process_tree.py, restricted to the fields the
conversion reads (pid, parent pid, command, cpu, memory, children). -/
inductive PNode where
  | mk (pid : ℤ) (parent_pid : Option ℤ) (command : String)
       (cpu_percent : ℚ) (memory_mb : ℚ) (children : List PNode)

/-- A `ProcessTreeNode` from database_schema.py. -/
inductive DBNode where
  | mk (pid : ℤ) (parent_pid : Option ℤ) (command : String)
       (cpu_percent : ℚ) (memory_mb : ℚ) (children : List DBNode)

mutual
/-- `convert_tree_to_db_nodes`: flatten the tree in preorder into childless
`ProcessTreeNode`s (`children=[]  # Will be flattened`). -/
def convert_tree_to_db_nodes : PNode → List DBNode
  | .mk pid pp cmd cpu mem cs => .mk pid pp cmd cpu mem [] :: convertForest cs
/-- Flattening of a list of subtrees, in order. -/
def convertForest : List PNode → List DBNode
  | [] => []
  | n :: rest => convert_tree_to_db_nodes n ++ convertForest rest
end

/-- A row of the `process_tree` table. `timestamp` is the SQLite value the
`DEFAULT CURRENT_TIMESTAMP` column stores (a full `YYYY-MM-DD HH:MM:SS`
datetime string). -/
structure TreeRow where
  session_id : ℕ
  pid : ℤ
  parent_pid : Option ℤ
  command : String
  depth : ℕ
  cpu_percent : ℚ
  memory_mb : ℚ
  timestamp : String
deriving DecidableEq

mutual
/-- `insert_node` of `record_process_tree`: insert a row at the given depth,
then the children at depth+1. -/
def insertNode (session : ℕ) (ts : String) (depth : ℕ) : DBNode → List TreeRow
  | .mk pid pp cmd cpu mem cs =>
      ⟨session, pid, pp, cmd, depth, cpu, mem, ts⟩ ::
        insertForest session ts (depth + 1) cs
/-- The `for node in tree_nodes: insert_node(node)` loop at one depth. -/
def insertForest (session : ℕ) (ts : String) (depth : ℕ) :
    List DBNode → List TreeRow
  | [] => []
  | n :: rest =>
      insertNode session ts depth n ++ insertForest session ts depth rest
end

/-- `record_process_tree`: delete the rows of this session whose `timestamp`
equals `date('now')` (the date-only string `dateNow`), then insert every node
of the snapshot, each new row stamped with `CURRENT_TIMESTAMP` (the datetime
string `tsNow`). -/
def record_process_tree (tbl : List TreeRow) (session : ℕ)
    (nodes : List DBNode) (dateNow tsNow : String) : List TreeRow :=
  (tbl.filter (fun r => !(r.session_id == session && r.timestamp == dateNow)))
    ++ insertForest session tsNow 0 nodes

/-- **C5.** Recording a two-node tree (root pid 1, child pid 2) through the
conversion pipeline stores BOTH rows with depth 0: the converter empties
`children`, so `insert_node`'s depth+1 recursion never runs and the child row
violates depth(child) = depth(parent) + 1. Inserting the original nested
shape directly would have stored depths 0 and 1. -/
theorem tree_depth_all_zero :
    record_process_tree [] 7
      (convert_tree_to_db_nodes
        (.mk 1 none "claude" 0 0 [.mk 2 (some 1) "node" 0 0 []]))
      "2026-10-12" "2026-10-12 08:00:00" =
      [⟨7, 1, none, "claude", 0, 0, 0, "2026-10-12 08:00:00"⟩,
       ⟨7, 2, some 1, "node", 0, 0, 0, "2026-10-12 08:00:00"⟩] ∧
    insertNode 7 "2026-10-12 08:00:00" 0
      (.mk 1 none "claude" 0 0 [.mk 2 (some 1) "node" 0 0 []]) =
      [⟨7, 1, none, "claude", 0, 0, 0, "2026-10-12 08:00:00"⟩,
       ⟨7, 2, some 1, "node", 1, 0, 0, "2026-10-12 08:00:00"⟩] ∧
    (0 : ℕ) ≠ 0 + 1 :=
  ⟨rfl, rfl, by decide⟩

/-- **C6.** Two snapshots recorded for session 7 on the same day: the DELETE
compares the stored datetime `"2026-10-12 08:00:00"` with the date-only
`date('now')` value `"2026-10-12"`, never matches, and the second snapshot is
appended: the table holds the rows of both snapshots, not only the second. -/
theorem record_tree_appends :
    record_process_tree
      (record_process_tree [] 7 [.mk 1 none "claude" 0 0 []]
        "2026-10-12" "2026-10-12 08:00:00")
      7 [.mk 1 none "claude" 5 10 []] "2026-10-12" "2026-10-12 08:00:05" =
      [⟨7, 1, none, "claude", 0, 0, 0, "2026-10-12 08:00:00"⟩,
       ⟨7, 1, none, "claude", 0, 5, 10, "2026-10-12 08:00:05"⟩] ∧
    ([⟨7, 1, none, "claude", 0, 0, 0, "2026-10-12 08:00:00"⟩,
      ⟨7, 1, none, "claude", 0, 5, 10, "2026-10-12 08:00:05"⟩] :
        List TreeRow) ≠
      [⟨7, 1, none, "claude", 0, 5, 10, "2026-10-12 08:00:05"⟩] := by
  constructor
  · rfl
  · intro h
    exact absurd (congrArg List.length h) (by decide)

/-! ### Process discovery filter (claude_top_core.py, find_claude_processes) -/

/-- Lower-case an ASCII string (Python `str.lower` on the command words). -/
def lowerStr (s : String) : String := String.mk (s.data.map Char.toLower)

/-- Does `needle` occur at the head of `hay`? -/
def headMatch : List Char → List Char → Bool
  | [], _ => true
  | _ :: _, [] => false
  | a :: as, b :: bs => a == b && headMatch as bs

/-- Python's `needle in hay` substring test. -/
def hasSub (needle : List Char) : List Char → Bool
  | [] => needle.isEmpty
  | c :: rest => headMatch needle (c :: rest) || hasSub needle rest

/-- `needle in hay` on strings. -/
def strIn (needle hay : String) : Bool := hasSub needle.data hay.data

/-- The per-process accept/skip logic of `find_claude_processes`: skip our
own pid; require a 'claude' token in some command word (case-insensitively);
skip desktop-app/helper/crashpad/updater variants; skip claude-top itself;
skip docker commands mentioning mcp/filesystem. `true` means the process is
kept (handed to `parse_claude_process`). -/
def find_claude_filter (currentPid pid : ℕ) (cmdline : List String) : Bool :=
  if pid == currentPid then false
  else if !cmdline.isEmpty &&
      cmdline.any (fun cmd => strIn "claude" (lowerStr cmd)) then
    let cmdline_str := String.intercalate " " cmdline
    if strIn "Claude.app" cmdline_str || strIn "Claude Helper" cmdline_str ||
        strIn "chrome_crashpad" cmdline_str || strIn "Squirrel" cmdline_str then
      false
    else if strIn "claude-top" cmdline_str || strIn "./claude-top" cmdline_str then
      false
    else if strIn "docker" cmdline_str && strIn "mcp/filesystem" cmdline_str then
      false
    else true
  else false

/-- **C8.** The containment rule is inverted relative to the claim (and to
the code's own comment): a containerized invocation matching the sanctioned
`mcp/filesystem` allow-pattern is EXCLUDED, while a containerized invocation
not matching it is RETURNED. -/
theorem docker_filter_inverted :
    find_claude_filter 999 100 ["docker", "run", "mcp/filesystem", "claude-mcp"]
      = false ∧
    find_claude_filter 999 101 ["docker", "run", "someimage", "claude"]
      = true := by
  constructor
  · rfl
  · rfl

end ClaudeTop
